import Mathlib

/-!
Verification of the hybrid retrieval / reranking core of an Obsidian
note-assistant plugin.

The embedding below is a shallow model of the TypeScript sources:

* src/tools/SearchTools.ts — query planning (lexicalSearch handler),
  tier dispatch (localSearch handler), exclusion filtering
  (isPathExcluded), result formatting and deduplication;
* the local reranker module (cosineSimilarity, localRerank);
* src/tools/providers/WebSearchProvider.ts (performWebSearch) and the
  webSearch tool handler.

Modelling conventions:

* JavaScript strings are Lean String; numbers that only ever take
  rational values (scores, thresholds) are ℚ; the reranker similarity
  math uses Math.sqrt and is modelled over ℝ.
* JS falsy coercion on strings (x || y) is jsOrS, on numbers jsOrQ.
* undefined / null-able fields are Option.
* thrown JS exceptions are Except values; a top-level catch appears as
  a match on the Except.
* external collaborators (the regex engine, the embedding model, the
  web providers, getStandaloneQuestion) are parameters supplied by the
  caller, so theorems quantify over their behaviour.
-/

/-- JS-style string coalescing: the s || t expression on strings, where the
empty string is falsy. -/
def jsOrS (s t : String) : String := if s = "" then t else s

/-- JS-style numeric coalescing: the x || y expression on numbers, where 0 is
falsy (NaN does not arise for the rational scores modelled here). -/
def jsOrQ (x y : ℚ) : ℚ := if x = 0 then y else x

/-- JS String.prototype.startsWith, over the character list (kernel-reducible
counterpart of the byte-position implementation in core). -/
def strStartsWith (s pre : String) : Bool := pre.data.isPrefixOf s.data

/-- JS String.prototype.endsWith, over the character list. -/
def strEndsWith (s post : String) : Bool := post.data.isSuffixOf s.data

/-- JS String.prototype.toLowerCase, over the character list. -/
def strToLower (s : String) : String := ⟨s.data.map Char.toLower⟩

/-- JS String.prototype.includes for a single-character needle. -/
def strContainsChar (s : String) (c : Char) : Bool := s.data.contains c

/-- JS String.prototype.slice(1) — drop the first character. -/
def strDrop (s : String) (n : ℕ) : String := ⟨s.data.drop n⟩

/-- Dropping from the right — the second half of a JS slice(1, -1). -/
def strDropRight (s : String) (n : ℕ) : String := ⟨s.data.take (s.data.length - n)⟩

/-- JS pattern.replace(/\*/g, ".*"): every star becomes a dot-star. -/
def starToDotStar (s : String) : String :=
  ⟨(s.data.map (fun c => if c = '*' then ['.', '*'] else [c])).flatten⟩

/-- JS Array.prototype.join with a separator. -/
def joinSep (sep : String) : List String → String
  | [] => ""
  | [s] => s
  | s :: rest => s ++ sep ++ joinSep sep rest

/-- JS Array.prototype.map with the index argument, counting from n. -/
def mapIdxFrom {α β : Type} (f : ℕ → α → β) : ℕ → List α → List β
  | _, [] => []
  | n, a :: rest => f n a :: mapIdxFrom f (n + 1) rest

/-- JS Array.prototype.map with the index argument. -/
def jsMapIdx {α β : Type} (f : ℕ → α → β) (l : List α) : List β :=
  mapIdxFrom f 0 l

/-- The slice of the settings store read by the search tools. -/
structure Settings where
  maxSourceChunks : ℕ
  enableSemanticSearchV3 : Bool
  vaultSearchExcludedPaths : List String
deriving Repr

/-- A TimeInfo value as consumed by the handlers: only its epoch field is
read. -/
structure TimeInfo where
  epoch : Int
deriving Repr, DecidableEq

/-- The optional timeRange argument of the local search tools. -/
structure TimeRangeInput where
  startTime : TimeInfo
  endTime : TimeInfo
deriving Repr, DecidableEq

/-- The epoch-valued time range placed into RetrieverOptions. -/
structure EpochRange where
  startTime : Int
  endTime : Int
deriving Repr, DecidableEq

/-- RetrieverOptions as built by the lexicalSearch handler
(SearchTools.ts lines 79–94). -/
structure RetrieverOptions where
  minSimilarityScore : ℚ
  maxK : ℕ
  salientTerms : List String
  timeRange : Option EpochRange
  textWeight : ℚ
  returnAll : Bool
  useRerankerThreshold : ℚ
  returnAllTags : Bool
  tagTerms : List String
deriving Repr

/-- Option derivation of the lexicalSearch handler (SearchTools.ts
lines 68–94).  RETURN_ALL_LIMIT is imported there from
search/v3/SearchCore, which is not among the sources, so the ceiling is
a parameter; TEXT_WEIGHT likewise. -/
def lexicalRetrieverOptions (RETURN_ALL_LIMIT : ℕ) (TEXT_WEIGHT : ℚ)
    (settings : Settings) (timeRange : Option TimeRangeInput)
    (salientTerms : List String) : RetrieverOptions :=
  let tagTerms := salientTerms.filter (fun term => strStartsWith term "#")
  let returnAll := timeRange.isSome
  let returnAllTags := decide (tagTerms.length > 0)
  let shouldReturnAll := returnAll || returnAllTags
  let effectiveMaxK := if shouldReturnAll then RETURN_ALL_LIMIT else settings.maxSourceChunks
  { minSimilarityScore := if shouldReturnAll then 0.0 else 0.1
    maxK := effectiveMaxK
    salientTerms := salientTerms
    timeRange := timeRange.map (fun tr => ⟨tr.startTime.epoch, tr.endTime.epoch⟩)
    textWeight := TEXT_WEIGHT
    returnAll := returnAll
    useRerankerThreshold := 0.5
    returnAllTags := returnAllTags
    tagTerms := tagTerms }

/-- The two retrieval tiers the localSearch dispatcher can delegate to. -/
inductive SearchTier where
  | lexical
  | semantic
deriving Repr, DecidableEq

/-- Tier selection of the localSearch handler (SearchTools.ts
lines 269–283): lexical is forced for time-ranged or tag-bearing
queries, and also used whenever the semantic flag is off. -/
def localSearchTier (settings : Settings) (timeRange : Option TimeRangeInput)
    (salientTerms : List String) : SearchTier :=
  let tagTerms := salientTerms.filter (fun term => strStartsWith term "#")
  let shouldForceLexical := timeRange.isSome || decide (tagTerms.length > 0)
  if shouldForceLexical || !settings.enableSemanticSearchV3 then .lexical else .semantic

/-- The pattern shape test of isPathExcluded (SearchTools.ts line 23): a
pattern is tried as a regex when it starts with a slash, contains a star,
or contains a backslash. -/
def looksLikeRegex (pattern : String) : Bool :=
  strStartsWith pattern "/" || strContainsChar pattern '*' || strContainsChar pattern '\\'

/-- The regex source derivation of isPathExcluded (SearchTools.ts
lines 26–28): strip the delimiting slashes of a /pattern/, otherwise
translate glob stars to .* . -/
def regexSource (pattern : String) : String :=
  if strStartsWith pattern "/" && strEndsWith pattern "/" then
    strDropRight (strDrop pattern 1) 1
  else
    starToDotStar pattern

/-- Literal branch of isPathExcluded (SearchTools.ts line 42): exact path
equality or folder-prefix match with either separator. -/
def literalMatch (filePath pattern : String) : Bool :=
  filePath == pattern
    || strStartsWith filePath (pattern ++ "/")
    || strStartsWith filePath (pattern ++ "\\")

/-- isPathExcluded (SearchTools.ts lines 16–48).  The JS regex engine is
external: regexTest r p models (new RegExp r).test p, already folding a
failed compilation into false (the catch falls through to the literal
check, as does a non-matching regex). -/
def isPathExcluded (regexTest : String → String → Bool)
    (filePath : String) (excludedPatterns : List String) : Bool :=
  excludedPatterns.any (fun pattern =>
    (if looksLikeRegex pattern then regexTest (regexSource pattern) filePath else false)
      || literalMatch filePath pattern)

/-- Metadata of a retrieved LangChain document as read by the handlers.
Fields that JS may leave undefined are Option. -/
structure DocMetadata where
  title : String
  path : String
  score : Option ℚ
  rerank_score : Option ℚ
  includeInContext : Option Bool
  source : Option String
  mtime : Option Int
  ctime : Option Int
  chunkId : Option String
  isChunk : Option Bool
  explanation : Option String
deriving Repr, DecidableEq

/-- A document returned by a retrieval tier. -/
structure LCDocument where
  pageContent : String
  metadata : DocMetadata
deriving Repr, DecidableEq

/-- A serialized search result (SearchTools.ts lines 128–144): both score
fields carry metadata.rerank_score ?? metadata.score ?? 0. -/
structure FormattedDoc where
  title : String
  content : String
  path : String
  score : ℚ
  rerank_score : ℚ
  includeInContext : Bool
  source : Option String
  mtime : Option Int
  ctime : Option Int
  chunkId : Option String
  isChunk : Bool
  explanation : Option String
deriving Repr, DecidableEq

/-- Serialization of one filtered document (SearchTools.ts lines 128–144). -/
def formatDoc (doc : LCDocument) : FormattedDoc :=
  let scored := doc.metadata.rerank_score.getD (doc.metadata.score.getD 0)
  { title := jsOrS doc.metadata.title "Untitled"
    content := doc.pageContent
    path := jsOrS doc.metadata.path ""
    score := scored
    rerank_score := scored
    includeInContext := doc.metadata.includeInContext.getD true
    source := doc.metadata.source
    mtime := doc.metadata.mtime
    ctime := doc.metadata.ctime
    chunkId := doc.metadata.chunkId
    isChunk := doc.metadata.isChunk.getD false
    explanation := doc.metadata.explanation }

/-- The source-like record handed to deduplicateSources (SearchTools.ts
lines 146–150). -/
structure SourceLike where
  title : String
  path : String
  score : ℚ
deriving Repr, DecidableEq

/-- Conversion of a formatted document to its source-like record
(SearchTools.ts lines 146–150). -/
def toSourceLike (d : FormattedDoc) : SourceLike :=
  { title := jsOrS d.title (jsOrS d.path "Untitled")
    path := jsOrS d.path (jsOrS d.title "")
    score := jsOrQ d.rerank_score (jsOrQ d.score 0) }

/-- Dedup key of a source-like record: (path || title).toLowerCase(). -/
def sourceKey (s : SourceLike) : String := strToLower (jsOrS s.path s.title)

/-- Dedup key of a formatted document as used by the bestByKey map
(SearchTools.ts line 156): (path || title).toLowerCase(). -/
def docKey (d : FormattedDoc) : String := strToLower (jsOrS d.path d.title)

/-- One step of a left-to-right best-per-key scan: the candidate replaces
the current best only when its score is strictly greater, so the first
occurrence of the maximum wins, exactly as a JS Map set under the
(!existing || score > existing.score) guard. -/
def pickBestStep {α : Type} (key : α → String) (score : α → ℚ) (k : String)
    (acc : Option α) (d : α) : Option α :=
  if key d = k then
    match acc with
    | none => some d
    | some e => if score d > score e then some d else some e
  else acc

/-- Best-scored element for a given key, scanning left to right. -/
def pickBest {α : Type} (key : α → String) (score : α → ℚ) (k : String)
    (l : List α) : Option α :=
  l.foldl (pickBestStep key score k) none

/-- Keys in order of first occurrence. -/
def firstOccKeys (ks : List String) : List String :=
  ks.foldl (fun acc k => if k ∈ acc then acc else acc ++ [k]) []

/-- Modelled from the spec: deduplicateSources is imported by
SearchTools.ts from LLMProviders/chainRunner/utils/toolExecution, a file
not among the sources.  Spec section 4.6: key a source by
(path || title).toLowerCase(); among sources sharing a key keep the one
with the highest score; keep the input order of first occurrences,
substituting each survivor for its best-scored duplicate. -/
def deduplicateSources (sources : List SourceLike) : List SourceLike :=
  (firstOccKeys (sources.map sourceKey)).filterMap
    (fun k => pickBest sourceKey SourceLike.score k sources)

/-- Lookup into the bestByKey map built by the handlers (SearchTools.ts
lines 154–161): per key, the map holds the first formatted document
attaining the maximal (rerank_score || 0). -/
def bestDocForKey (ds : List FormattedDoc) (k : String) : Option FormattedDoc :=
  pickBest docKey (fun d => jsOrQ d.rerank_score 0) k ds

/-- The dedup stage of the handlers (SearchTools.ts lines 145–164):
convert to source-like records, deduplicate those, then map each
surviving source back to the best-scored formatted document of its key,
dropping missed lookups. -/
def dedupStage (ds : List FormattedDoc) : List FormattedDoc :=
  let sourcesLike := ds.map toSourceLike
  let dedupedSources := deduplicateSources sourcesLike
  dedupedSources.filterMap (fun s => bestDocForKey ds (sourceKey s))

/-- The shared tail of the lexicalSearch and semanticSearch handlers
(SearchTools.ts lines 115–166 and the identical lines 210–260): exclusion
filtering, serialization, deduplication.  The tier's retrieved documents
and the regex oracle are inputs. -/
def searchResultsPipeline (regexTest : String → String → Bool)
    (settings : Settings) (documents : List LCDocument) : List FormattedDoc :=
  let excludedPatterns := settings.vaultSearchExcludedPaths
  let filteredDocuments := documents.filter
    (fun doc => !(isPathExcluded regexTest (jsOrS doc.metadata.path "") excludedPatterns))
  let formattedResults := filteredDocuments.map formatDoc
  dedupStage formattedResults

/-- One web search hit (WebSearchProvider.ts, WebSearchResult). -/
structure WebSearchResult where
  title : String
  url : String
  snippet : String
  content : Option String
deriving Repr, DecidableEq

/-- A provider response (WebSearchProvider.ts, WebSearchResponse). -/
structure WebSearchResponse where
  results : List WebSearchResult
  query : String
  answer : Option String
deriving Repr, DecidableEq

/-- The static descriptor of a web search provider as read when building
the not-configured message. -/
structure ProviderInfo where
  name : String
  displayName : String
  requiresApiKey : Bool
  apiKeyUrl : Option String
deriving Repr, DecidableEq

/-- A thrown JS value: some msg is an Error whose message is msg, none is
a non-Error throw. -/
abbrev JSThrown := Option String

/-- The not-configured error text of performWebSearch
(WebSearchProvider.ts lines 410–416).  configuredProvider is the registry
lookup of the configured name, none when that lookup misses. -/
def notConfiguredMessage (providerName : String)
    (configuredProvider : Option ProviderInfo) : String :=
  let display := jsOrS ((configuredProvider.map (fun p => p.displayName)).getD "") providerName
  let base := "Web search provider \"" ++ display ++ "\" is not configured."
  match configuredProvider with
  | some p =>
    if p.requiresApiKey && !((p.apiKeyUrl.getD "") == "") then
      base ++ " Please add your API key in settings. Get one at " ++ (p.apiKeyUrl.getD "")
    else if providerName == "searxng" then
      base ++ " Please set your SearXNG instance URL in settings."
    else base
  | none =>
    if providerName == "searxng" then
      base ++ " Please set your SearXNG instance URL in settings."
    else base

/-- performWebSearch (WebSearchProvider.ts lines 402–436).  The active
provider's search call is the parameter searchCall (it models
provider.search, throwing as Except.error); configured models
isWebSearchConfigured(). -/
def performWebSearch (configured : Bool) (providerName : String)
    (configuredProvider : Option ProviderInfo)
    (searchCall : String → Except JSThrown WebSearchResponse)
    (query : String) : WebSearchResponse :=
  if !configured then
    { query := query, results := [],
      answer := some (notConfiguredMessage providerName configuredProvider) }
  else
    match searchCall query with
    | .ok result => result
    | .error e =>
      { query := query, results := [],
        answer := some (e.getD "Web search failed with unknown error") }

/-- One element of the webSearch tool's JSON payload (SearchTools.ts
lines 355–396); absent JS fields are none. -/
structure WebSearchEntry where
  type : String
  content : String
  citations : List String
  error : Option String
  instruction : Option String
deriving Repr, DecidableEq

/-- The webSearch tool handler (SearchTools.ts lines 346–398).
standalone models the awaited getStandaloneQuestion(query, chatHistory),
perform the performWebSearch call, citationInstructions the imported
getWebSearchCitationInstructions(). -/
def webSearchHandler (standalone : Except JSThrown String)
    (perform : String → WebSearchResponse)
    (citationInstructions : String) : List WebSearchEntry :=
  match standalone with
  | .error e =>
    [{ type := "web_search"
       error := some (e.getD "Web search failed")
       content := e.getD "Web search failed with unknown error"
       citations := []
       instruction := none }]
  | .ok standaloneQuestion =>
    let response := perform standaloneQuestion
    if response.results.length == 0 && !((response.answer.getD "") == "") then
      [{ type := "web_search"
         error := response.answer
         content := response.answer.getD ""
         citations := []
         instruction := none }]
    else
      let citations := jsMapIdx
        (fun i r => "[" ++ toString (i + 1) ++ "] " ++ r.url) response.results
      let answerPart :=
        match response.answer with
        | some a => if a == "" then "" else a ++ "\n\n"
        | none => ""
      let webContent := answerPart ++ joinSep "\n\n"
        (jsMapIdx
          (fun i r => "[" ++ toString (i + 1) ++ "] **" ++ r.title ++ "**\n" ++ r.snippet)
          response.results)
      [{ type := "web_search"
         content := webContent
         citations := citations
         error := none
         instruction := some citationInstructions }]

/-- Sum of pairwise products accumulated by the cosineSimilarity loop;
with vecA = vecB it is the squared norm accumulator. -/
def dotAcc (vecA vecB : List ℝ) : ℝ :=
  (List.zipWith (fun x y => x * y) vecA vecB).sum

section
open Classical

/-- cosineSimilarity of the local reranker (reranker module
lines 31–50): throws on length mismatch, returns 0 when either
magnitude is zero, otherwise the normalized dot product. -/
noncomputable def cosineSimilarity (vecA vecB : List ℝ) : Except String ℝ :=
  if vecA.length ≠ vecB.length then .error "Vectors must have the same length"
  else
    let dotProduct := dotAcc vecA vecB
    let normA := dotAcc vecA vecA
    let normB := dotAcc vecB vecB
    let magnitude := Real.sqrt normA * Real.sqrt normB
    if magnitude = 0 then .ok 0 else .ok (dotProduct / magnitude)

/-- A rerank result (reranker module lines 12–15). -/
structure RerankResult where
  index : ℕ
  relevance_score : ℝ

/-- Usage accounting of a rerank response. -/
structure RerankUsage where
  total_tokens : ℚ
deriving Repr, DecidableEq

/-- The response.response object of localRerank. -/
structure LocalRerankInner where
  data : List RerankResult
  model : String
  usage : RerankUsage

/-- The full localRerank response; elapsed wall-clock time is not
modelled and is fixed at 0. -/
structure LocalRerankResponse where
  response : LocalRerankInner
  elapsed_time_ms : ℕ

/-- The embedding backend obtained from EmbeddingManager; either call
may throw. -/
structure EmbeddingAPI where
  embedQuery : String → Except String (List ℝ)
  embedDocuments : List String → Except String (List (List ℝ))

/-- Left-to-right traversal of a JS Array.prototype.map callback that can
throw: the first exception escapes the whole map. -/
def exceptMap {ε α β : Type} (f : α → Except ε β) : List α → Except ε (List β)
  | [] => .ok []
  | a :: rest =>
    match f a with
    | .error e => .error e
    | .ok b =>
      match exceptMap f rest with
      | .error e => .error e
      | .ok bs => .ok (b :: bs)

/-- Scoring of one candidate (reranker module lines 80–89): reading
documentEmbeddings[index] past the end throws in JS (undefined.length),
and cosineSimilarity throws on length mismatch; both surface as
Except.error and reach the catch. -/
noncomputable def scoreOne (queryEmbedding : List ℝ) (documentEmbeddings : List (List ℝ))
    (index : ℕ) : Except String RerankResult :=
  match documentEmbeddings[index]? with
  | none => .error "TypeError: undefined embedding"
  | some emb =>
    (cosineSimilarity queryEmbedding emb).map
      (fun similarity => { index := index, relevance_score := (similarity + 1) / 2 })

/-- Descending stable sort by relevance score (reranker module line 92,
the JS stable sort under the comparator b.relevance_score -
a.relevance_score). -/
noncomputable def sortByScoreDesc (l : List RerankResult) : List RerankResult :=
  l.mergeSort (fun a b => decide (b.relevance_score ≤ a.relevance_score))

/-- The fallback ranking of localRerank (reranker module lines 112–122):
original order, scores 1 - index * 0.01. -/
noncomputable def fallbackData (documents : List String) : List RerankResult :=
  (List.range documents.length).map
    (fun index => { index := index, relevance_score := 1 - (index : ℝ) * (1 / 100) })

/-- The token estimate of a successful rerank (reranker module
line 102). -/
def rerankTokenEstimate (documents : List String) : ℚ :=
  (documents.map (fun doc => (doc.length : ℚ) / 4)).sum

/-- localRerank (reranker module lines 56–124).  embeddingInstance is
the awaited EmbeddingManager result (none models a missing embedding
model, whose in-try throw is caught like any other), embeddingModelKey
the settings field naming the success-path model.  Every failure inside
the try block lands in the catch, which returns the fallback ranking —
the function is total, so the caller never sees an exception. -/
noncomputable def localRerank (embeddingInstance : Option EmbeddingAPI)
    (embeddingModelKey : String) (query : String)
    (documents : List String) : LocalRerankResponse :=
  let fallback : LocalRerankResponse :=
    { response :=
        { data := fallbackData documents
          model := "fallback"
          usage := { total_tokens := 0 } }
      elapsed_time_ms := 0 }
  match embeddingInstance with
  | none => fallback
  | some inst =>
    match inst.embedQuery query with
    | .error _ => fallback
    | .ok queryEmbedding =>
      match inst.embedDocuments documents with
      | .error _ => fallback
      | .ok documentEmbeddings =>
        match exceptMap (scoreOne queryEmbedding documentEmbeddings)
            (List.range documents.length) with
        | .error _ => fallback
        | .ok scoredDocuments =>
          { response :=
              { data := sortByScoreDesc scoredDocuments
                model := jsOrS embeddingModelKey "local"
                usage := { total_tokens := rerankTokenEstimate documents } }
            elapsed_time_ms := 0 }

end

/-- Fixture builder: a formatted document with the given path and rerank
score, all other fields defaulted, used to instantiate theorems on
concrete inputs. -/
def mkSearchDoc (path : String) (rerank_score : ℚ) : FormattedDoc :=
  { title := "Untitled", content := "", path := path, score := rerank_score,
    rerank_score := rerank_score, includeInContext := true, source := none,
    mtime := none, ctime := none, chunkId := none, isChunk := false,
    explanation := none }

/-- Fixture builder: a retrieved document with the given path and optional
scores, used to instantiate theorems on concrete inputs. -/
def mkRetrievedDoc (path : String) (score rerank_score : Option ℚ) : LCDocument :=
  { pageContent := "body",
    metadata := { title := "Note", path := path, score := score,
                  rerank_score := rerank_score, includeInContext := none,
                  source := none, mtime := none, ctime := none,
                  chunkId := none, isChunk := none, explanation := none } }

/-- C1: option derivation of the lexicalSearch handler — returnAll is set
exactly when a time range is supplied, returnAllTags exactly when some
salient term starts with '#', the effective cap is the return-all
ceiling exactly when either flag holds (the configured default cap
otherwise), and the similarity floor is 0.0 in return-all mode and 0.1
otherwise. -/
theorem lexicalSearch_option_derivation (RETURN_ALL_LIMIT : ℕ) (TEXT_WEIGHT : ℚ)
    (settings : Settings) (timeRange : Option TimeRangeInput)
    (salientTerms : List String) :
    ((lexicalRetrieverOptions RETURN_ALL_LIMIT TEXT_WEIGHT settings timeRange
        salientTerms).returnAll = true ↔ timeRange ≠ none) ∧
    ((lexicalRetrieverOptions RETURN_ALL_LIMIT TEXT_WEIGHT settings timeRange
        salientTerms).returnAllTags = true ↔
      ∃ t ∈ salientTerms, strStartsWith t "#" = true) ∧
    (lexicalRetrieverOptions RETURN_ALL_LIMIT TEXT_WEIGHT settings timeRange
        salientTerms).maxK =
      (if (lexicalRetrieverOptions RETURN_ALL_LIMIT TEXT_WEIGHT settings timeRange
            salientTerms).returnAll
          || (lexicalRetrieverOptions RETURN_ALL_LIMIT TEXT_WEIGHT settings timeRange
            salientTerms).returnAllTags
        then RETURN_ALL_LIMIT else settings.maxSourceChunks) ∧
    (lexicalRetrieverOptions RETURN_ALL_LIMIT TEXT_WEIGHT settings timeRange
        salientTerms).minSimilarityScore =
      (if (lexicalRetrieverOptions RETURN_ALL_LIMIT TEXT_WEIGHT settings timeRange
            salientTerms).returnAll
          || (lexicalRetrieverOptions RETURN_ALL_LIMIT TEXT_WEIGHT settings timeRange
            salientTerms).returnAllTags
        then 0.0 else 0.1) := by
  refine ⟨?_, ?_, rfl, rfl⟩
  · cases timeRange <;> simp [lexicalRetrieverOptions]
  · simp [lexicalRetrieverOptions, List.length_pos, List.filter_eq_nil_iff, List.mem_filter]

/-- Witness instantiating the C1 derivation on a concrete tag query with a
time range. -/
theorem lexicalSearch_option_derivation_witness :
    (lexicalRetrieverOptions 500 (mkRat 7 10) ⟨30, true, []⟩
        (some ⟨⟨0⟩, ⟨10⟩⟩) ["#p"]).returnAll = true ∧
    (lexicalRetrieverOptions 500 (mkRat 7 10) ⟨30, true, []⟩
        (some ⟨⟨0⟩, ⟨10⟩⟩) ["#p"]).returnAllTags = true := by
  have h := lexicalSearch_option_derivation 500 (mkRat 7 10) ⟨30, true, []⟩
    (some ⟨⟨0⟩, ⟨10⟩⟩) ["#p"]
  exact ⟨h.1.mpr (by decide), h.2.1.mpr ⟨"#p", by decide, by decide⟩⟩

/-- C2: the localSearch dispatcher delegates to the semantic tier exactly
when semantic search is enabled, no time range is supplied and no salient
term starts with '#'; in every other case it delegates to the lexical
tier. -/
theorem localSearch_dispatch (settings : Settings)
    (timeRange : Option TimeRangeInput) (salientTerms : List String) :
    (localSearchTier settings timeRange salientTerms = .semantic ↔
      (settings.enableSemanticSearchV3 = true ∧ timeRange = none ∧
        ∀ t ∈ salientTerms, strStartsWith t "#" = false)) ∧
    (localSearchTier settings timeRange salientTerms = .lexical ↔
      ¬(settings.enableSemanticSearchV3 = true ∧ timeRange = none ∧
        ∀ t ∈ salientTerms, strStartsWith t "#" = false)) := by
  have h : localSearchTier settings timeRange salientTerms = .semantic ↔
      (settings.enableSemanticSearchV3 = true ∧ timeRange = none ∧
        ∀ t ∈ salientTerms, strStartsWith t "#" = false) := by
    unfold localSearchTier
    rcases timeRange with _ | tr
    · cases hs : settings.enableSemanticSearchV3 <;>
        simp [hs, List.length_pos, List.filter_eq_nil_iff, List.mem_filter]
    · simp
  refine ⟨h, ?_⟩
  cases hres : localSearchTier settings timeRange salientTerms with
  | lexical => simp [hres] at h ⊢; intro h1 h2; simpa [h1, h2] using h
  | semantic => simp [hres] at h ⊢; exact h

/-- Witness instantiating the C2 dispatcher policy: a tag query forces the
lexical tier even with the semantic flag on. -/
theorem localSearch_dispatch_witness :
    localSearchTier ⟨30, true, []⟩ none ["#projectx"] = .lexical := by
  exact (localSearch_dispatch ⟨30, true, []⟩ none ["#projectx"]).2.mpr
    (by intro h; exact absurd (h.2.2 "#projectx" (by simp)) (by decide))

/-- C6 (amended): for patterns that do not trigger the regex branch
(no leading slash, no star, no backslash), isPathExcluded excludes a path
exactly when some pattern matches it literally — exact equality or
folder-prefix with a '/' or '\' separator.  In particular pattern
"journal" excludes "journal/2024/jan.md" and does not exclude
"journal2/jan.md"; the spec's trailing-slash pattern "journal/" matches
neither (see the counterexample). -/
theorem isPathExcluded_literal_semantics (regexTest : String → String → Bool)
    (filePath : String) (excludedPatterns : List String)
    (hlit : ∀ p ∈ excludedPatterns, looksLikeRegex p = false) :
    isPathExcluded regexTest filePath excludedPatterns = true ↔
      ∃ p ∈ excludedPatterns, filePath = p ∨
        strStartsWith filePath (p ++ "/") = true ∨
        strStartsWith filePath (p ++ "\\") = true := by
  simp only [isPathExcluded, List.any_eq_true]
  constructor
  · rintro ⟨p, hp, hm⟩
    refine ⟨p, hp, ?_⟩
    rw [hlit p hp] at hm
    simpa [literalMatch, or_assoc] using hm
  · rintro ⟨p, hp, hm⟩
    refine ⟨p, hp, ?_⟩
    rw [hlit p hp]
    simpa [literalMatch, or_assoc] using hm

/-- Witness instantiating the C6 literal semantics: pattern "journal"
excludes "journal/2024/jan.md" (folder prefix) and does not exclude
"journal2/jan.md" (no false prefix). -/
theorem isPathExcluded_literal_semantics_witness :
    isPathExcluded (fun _ _ => false) "journal/2024/jan.md" ["journal"] = true ∧
    isPathExcluded (fun _ _ => false) "journal2/jan.md" ["journal"] = false := by
  constructor
  · exact (isPathExcluded_literal_semantics (fun _ _ => false) "journal/2024/jan.md"
      ["journal"] (by decide)).mpr ⟨"journal", by decide, by decide⟩
  · have h := isPathExcluded_literal_semantics (fun _ _ => false) "journal2/jan.md"
      ["journal"] (by decide)
    by_contra hc
    simp only [Bool.not_eq_false] at hc
    have := h.mp hc
    revert this
    decide

/-- Counterexample to C6 as stated: the pattern "journal/" (with trailing
slash) does not exclude "journal/2024/jan.md" — the literal branch tests
the prefix "journal//" — whatever the regex oracle would answer (the
pattern does not trigger the regex branch). -/
theorem isPathExcluded_trailing_slash_cex :
    isPathExcluded (fun _ _ => false) "journal/2024/jan.md" ["journal/"] = false ∧
    isPathExcluded (fun _ _ => true) "journal/2024/jan.md" ["journal/"] = false := by
  decide

/-- Generalized invariant of the best-per-key left scan: a produced best
either was the initial accumulator or is a list element with the key, it
dominates every keyed list element, and it dominates the initial
accumulator. -/
theorem pickBest_foldl_spec {α : Type} (key : α → String) (score : α → ℚ)
    (k : String) :
    ∀ (l : List α) (acc : Option α) (a : α),
      l.foldl (pickBestStep key score k) acc = some a →
      (acc = some a ∨ (a ∈ l ∧ key a = k)) ∧
      (∀ b ∈ l, key b = k → score b ≤ score a) ∧
      (∀ c, acc = some c → score c ≤ score a) := by
  intro l
  induction l with
  | nil =>
    intro acc a h
    simp only [List.foldl_nil] at h
    refine ⟨Or.inl h, by simp, fun c hc => ?_⟩
    rw [h] at hc
    injection hc with h2
    rw [h2]
  | cons x xs ih =>
    intro acc a h
    simp only [List.foldl_cons] at h
    obtain ⟨h1, h2, h3⟩ := ih (pickBestStep key score k acc x) a h
    by_cases hk : key x = k
    · cases acc with
      | none =>
        have hstep : pickBestStep key score k none x = some x := by
          simp [pickBestStep, hk]
        rw [hstep] at h1 h3
        refine ⟨?_, ?_, fun c hc => Option.noConfusion hc⟩
        · rcases h1 with h1 | ⟨hmem, hka⟩
          · have hxa : x = a := by injection h1
            subst hxa
            exact Or.inr ⟨List.mem_cons_self _ _, hk⟩
          · exact Or.inr ⟨List.mem_cons_of_mem _ hmem, hka⟩
        · intro b hb hkb
          rcases List.mem_cons.mp hb with rfl | hb
          · exact h3 b rfl
          · exact h2 b hb hkb
      | some e =>
        have hstep : pickBestStep key score k (some e) x =
            if score x > score e then some x else some e := by
          simp [pickBestStep, hk]
        rw [hstep] at h1 h3
        by_cases hs : score x > score e
        · rw [if_pos hs] at h1 h3
          have hxa : score x ≤ score a := h3 x rfl
          refine ⟨?_, ?_, fun c hc => ?_⟩
          · rcases h1 with h1 | ⟨hmem, hka⟩
            · have hxa2 : x = a := by injection h1
              subst hxa2
              exact Or.inr ⟨List.mem_cons_self _ _, hk⟩
            · exact Or.inr ⟨List.mem_cons_of_mem _ hmem, hka⟩
          · intro b hb hkb
            rcases List.mem_cons.mp hb with rfl | hb
            · exact hxa
            · exact h2 b hb hkb
          · injection hc with hce
            subst hce
            exact le_trans (le_of_lt hs) hxa
        · rw [if_neg hs] at h1 h3
          have hea : score e ≤ score a := h3 e rfl
          push_neg at hs
          refine ⟨?_, ?_, fun c hc => ?_⟩
          · rcases h1 with h1 | ⟨hmem, hka⟩
            · exact Or.inl h1
            · exact Or.inr ⟨List.mem_cons_of_mem _ hmem, hka⟩
          · intro b hb hkb
            rcases List.mem_cons.mp hb with rfl | hb
            · exact le_trans hs hea
            · exact h2 b hb hkb
          · injection hc with hce
            subst hce
            exact hea
    · have hstep : pickBestStep key score k acc x = acc := by
        simp [pickBestStep, hk]
      rw [hstep] at h1 h3
      refine ⟨?_, ?_, h3⟩
      · rcases h1 with h1 | ⟨hmem, hka⟩
        · exact Or.inl h1
        · exact Or.inr ⟨List.mem_cons_of_mem _ hmem, hka⟩
      · intro b hb hkb
        rcases List.mem_cons.mp hb with rfl | hb
        · exact absurd hkb hk
        · exact h2 b hb hkb

/-- A best produced from an empty accumulator is a keyed list element that
dominates every keyed list element. -/
theorem pickBest_spec {α : Type} {key : α → String} {score : α → ℚ}
    {k : String} {l : List α} {a : α}
    (h : pickBest key score k l = some a) :
    a ∈ l ∧ key a = k ∧ ∀ b ∈ l, key b = k → score b ≤ score a := by
  obtain ⟨h1, h2, _⟩ := pickBest_foldl_spec key score k l none a h
  rcases h1 with h1 | ⟨hmem, hka⟩
  · exact Option.noConfusion h1
  · exact ⟨hmem, hka, h2⟩

/-- The best-per-key scan leaves the accumulator untouched when no list
element carries the key. -/
theorem pickBest_foldl_of_no_key {α : Type} (key : α → String) (score : α → ℚ)
    (k : String) :
    ∀ (l : List α) (acc : Option α), (∀ b ∈ l, key b ≠ k) →
      l.foldl (pickBestStep key score k) acc = acc := by
  intro l
  induction l with
  | nil => intro acc _; rfl
  | cons x xs ih =>
    intro acc hnone
    simp only [List.foldl_cons]
    have hx : pickBestStep key score k acc x = acc := by
      simp [pickBestStep, hnone x (List.mem_cons_self _ _)]
    rw [hx]
    exact ih acc (fun b hb => hnone b (List.mem_cons_of_mem _ hb))

/-- On a list whose keys are pairwise distinct, the best for an element's
key is that element itself. -/
theorem pickBest_of_nodup {α : Type} (key : α → String) (score : α → ℚ)
    {l : List α} (hnd : (l.map key).Nodup) {a : α}
    (ha : a ∈ l) : pickBest key score (key a) l = some a := by
  induction l with
  | nil => cases ha
  | cons x xs ih =>
    have hnd2 : (key x :: xs.map key).Nodup := by simpa using hnd
    obtain ⟨hnotin, hnd3⟩ := List.nodup_cons.mp hnd2
    rcases List.mem_cons.mp ha with rfl | ha2
    · unfold pickBest
      simp only [List.foldl_cons]
      have hstep : pickBestStep key score (key a) none a = some a := by
        simp [pickBestStep]
      rw [hstep]
      apply pickBest_foldl_of_no_key
      intro b hb hcontra
      exact hnotin (hcontra ▸ List.mem_map_of_mem key hb)
    · have hx_ne : key x ≠ key a := by
        intro he
        exact hnotin (he ▸ List.mem_map_of_mem key ha2)
      unfold pickBest
      simp only [List.foldl_cons]
      have hstep : pickBestStep key score (key a) none x = none := by
        simp [pickBestStep, hx_ne]
      rw [hstep]
      have := ih hnd3 ha2
      simpa [pickBest] using this

/-- Coalescing a score against 0 is the identity on rationals. -/
theorem jsOrQ_zero (x : ℚ) : jsOrQ x 0 = x := by
  unfold jsOrQ
  split <;> simp_all

/-- The first-occurrence scan preserves distinctness of the accumulator. -/
theorem firstOccKeys_foldl_nodup :
    ∀ (ks acc : List String), acc.Nodup →
      (ks.foldl (fun acc k => if k ∈ acc then acc else acc ++ [k]) acc).Nodup := by
  intro ks
  induction ks with
  | nil => intro acc h; exact h
  | cons k ks ih =>
    intro acc h
    simp only [List.foldl_cons]
    by_cases hk : k ∈ acc
    · simpa [hk] using ih acc h
    · rw [if_neg hk]
      exact ih (acc ++ [k]) (by simp [List.nodup_append, h, hk])

/-- Keys surviving the first-occurrence scan are distinct. -/
theorem firstOccKeys_nodup (ks : List String) : (firstOccKeys ks).Nodup :=
  firstOccKeys_foldl_nodup ks [] List.nodup_nil

/-- Members of the first-occurrence scan come from the accumulator or the
input. -/
theorem firstOccKeys_foldl_mem :
    ∀ (ks acc : List String) (x : String),
      x ∈ ks.foldl (fun acc k => if k ∈ acc then acc else acc ++ [k]) acc →
      x ∈ acc ∨ x ∈ ks := by
  intro ks
  induction ks with
  | nil => intro acc x h; exact Or.inl h
  | cons k ks ih =>
    intro acc x h
    simp only [List.foldl_cons] at h
    rcases ih _ x h with hacc | hks
    · by_cases hk : k ∈ acc
      · rw [if_pos hk] at hacc
        exact Or.inl hacc
      · rw [if_neg hk] at hacc
        rcases List.mem_append.mp hacc with h1 | h1
        · exact Or.inl h1
        · simp at h1
          exact Or.inr (h1 ▸ List.mem_cons_self _ _)
    · exact Or.inr (List.mem_cons_of_mem _ hks)

/-- Every surviving first-occurrence key occurs in the input. -/
theorem firstOccKeys_subset {ks : List String} {x : String}
    (h : x ∈ firstOccKeys ks) : x ∈ ks := by
  rcases firstOccKeys_foldl_mem ks [] x h with h1 | h1
  · cases h1
  · exact h1

/-- On an input of pairwise distinct keys the first-occurrence scan is the
identity. -/
theorem firstOccKeys_foldl_of_nodup :
    ∀ (ks acc : List String), (acc ++ ks).Nodup →
      ks.foldl (fun acc k => if k ∈ acc then acc else acc ++ [k]) acc = acc ++ ks := by
  intro ks
  induction ks with
  | nil => intro acc _; simp
  | cons k ks ih =>
    intro acc h
    have hk : k ∉ acc := by
      intro hc
      have := List.disjoint_of_nodup_append h
      exact this hc (List.mem_cons_self _ _)
    simp only [List.foldl_cons, if_neg hk]
    have h2 : ((acc ++ [k]) ++ ks).Nodup := by
      simpa [List.append_assoc] using h
    rw [ih (acc ++ [k]) h2]
    simp

/-- firstOccKeys is the identity on a list of distinct keys. -/
theorem firstOccKeys_of_nodup {ks : List String} (h : ks.Nodup) :
    firstOccKeys ks = ks := by
  have := firstOccKeys_foldl_of_nodup ks [] (by simpa using h)
  simpa [firstOccKeys] using this

/-- Lowercasing a nonempty string yields a nonempty string. -/
theorem strToLower_ne_empty {s : String} (h : s ≠ "") : strToLower s ≠ "" := by
  intro hc
  apply h
  have hd : s.data.map Char.toLower = [] := by
    have := congrArg String.data hc
    simpa [strToLower] using this
  have hdata : s.data = [] := by
    cases hmap : s.data with
    | nil => rfl
    | cons c cs => rw [hmap] at hd; cases hd
  cases s with
  | mk data =>
    rw [show data = [] from hdata]

/-- String coalescing against a nonempty fallback is nonempty. -/
theorem jsOrS_ne_empty {s t : String} (h : t ≠ "") : jsOrS s t ≠ "" := by
  by_cases hs : s = "" <;> simp [jsOrS, hs, h]

/-- The source-like dedup key is never the empty string (the title slot is
always populated, falling back to "Untitled"). -/
theorem sourceKey_toSourceLike_ne_empty (d : FormattedDoc) :
    sourceKey (toSourceLike d) ≠ "" := by
  unfold sourceKey toSourceLike
  apply strToLower_ne_empty
  apply jsOrS_ne_empty
  apply jsOrS_ne_empty
  have hu : ("Untitled" : String) ≠ "" := by decide
  exact jsOrS_ne_empty hu

/-- For a document whose dedup key is nonempty (equivalently: path and
title are not both empty), the source-like record carries the same dedup
key. -/
theorem sourceKey_toSourceLike {d : FormattedDoc} (h : docKey d ≠ "") :
    sourceKey (toSourceLike d) = docKey d := by
  unfold sourceKey toSourceLike docKey at *
  by_cases hp : d.path = ""
  · by_cases ht : d.title = ""
    · exfalso
      apply h
      rw [hp, ht]
      decide
    · simp [jsOrS, hp, ht]
  · simp [jsOrS, hp]

/-- The dedup stage fused into a single filterMap over the
first-occurrence keys. -/
theorem dedupStage_eq_fused (ds : List FormattedDoc) :
    dedupStage ds = (firstOccKeys ((ds.map toSourceLike).map sourceKey)).filterMap
      (fun k => (pickBest sourceKey SourceLike.score k (ds.map toSourceLike)).bind
        (fun s => bestDocForKey ds (sourceKey s))) := by
  unfold dedupStage deduplicateSources
  rw [List.filterMap_filterMap]

/-- A document surviving the dedup stage is the best of its own key among
the stage's input, belongs to that input, and has a nonempty key. -/
theorem dedupStage_mem_best {ds : List FormattedDoc} {d : FormattedDoc}
    (h : d ∈ dedupStage ds) :
    bestDocForKey ds (docKey d) = some d ∧ d ∈ ds ∧ docKey d ≠ "" := by
  rw [dedupStage_eq_fused] at h
  obtain ⟨k, hk, hbind⟩ := List.mem_filterMap.mp h
  obtain ⟨s, hs, hbd⟩ := Option.bind_eq_some.mp hbind
  obtain ⟨hsmem, hskey, _⟩ := pickBest_spec hs
  obtain ⟨hdmem, hdkey, _⟩ := pickBest_spec hbd
  obtain ⟨d0, _, hd0⟩ := List.mem_map.mp hsmem
  have hne : sourceKey s ≠ "" := hd0 ▸ sourceKey_toSourceLike_ne_empty d0
  refine ⟨?_, hdmem, hdkey ▸ hne⟩
  rw [hdkey]
  exact hbd

/-- Mapping the key over a filterMap whose values carry their key back is
a sublist of the key list. -/
theorem filterMap_map_key_sublist {β : Type} (g : String → Option β)
    (keyf : β → String) (hg : ∀ k b, g k = some b → keyf b = k) :
    ∀ K : List String, ((K.filterMap g).map keyf).Sublist K := by
  intro K
  induction K with
  | nil => simp
  | cons k ks ih =>
    cases hgk : g k with
    | none =>
      simp only [List.filterMap_cons, hgk]
      exact ih.cons k
    | some b =>
      simp only [List.filterMap_cons, hgk, List.map_cons]
      rw [hg k b hgk]
      exact ih.cons₂ k

/-- The dedup stage never emits two documents with the same key. -/
theorem dedupStage_keys_nodup (ds : List FormattedDoc) :
    ((dedupStage ds).map docKey).Nodup := by
  rw [dedupStage_eq_fused]
  refine List.Nodup.sublist (filterMap_map_key_sublist _ docKey ?_ _)
    (firstOccKeys_nodup _)
  intro k d hkd
  obtain ⟨s, hs, hbd⟩ := Option.bind_eq_some.mp hkd
  obtain ⟨_, hskey, _⟩ := pickBest_spec hs
  obtain ⟨_, hdkey, _⟩ := pickBest_spec hbd
  rw [hdkey, hskey]

/-- filterMap with a pointwise-identity function is the identity. -/
theorem filterMap_eq_self_of {α : Type} (f : α → Option α) :
    ∀ l : List α, (∀ a ∈ l, f a = some a) → l.filterMap f = l := by
  intro l
  induction l with
  | nil => intro _; rfl
  | cons x xs ih =>
    intro h
    rw [List.filterMap_cons, h x (List.mem_cons_self _ _),
      ih (fun a ha => h a (List.mem_cons_of_mem _ ha))]

/-- On an input with pairwise distinct, nonempty keys the dedup stage is
the identity. -/
theorem dedupStage_of_clean (Y : List FormattedDoc)
    (h1 : (Y.map docKey).Nodup)
    (h2 : ∀ d ∈ Y, docKey d ≠ "") :
    dedupStage Y = Y := by
  have hkeyEq : ∀ d ∈ Y, sourceKey (toSourceLike d) = docKey d :=
    fun d hd => sourceKey_toSourceLike (h2 d hd)
  have hsrcKeys : (Y.map toSourceLike).map sourceKey = Y.map docKey := by
    rw [List.map_map]
    exact List.map_congr_left hkeyEq
  have hsn : ((Y.map toSourceLike).map sourceKey).Nodup := by
    rw [hsrcKeys]; exact h1
  rw [dedupStage_eq_fused, hsrcKeys, firstOccKeys_of_nodup h1,
    List.filterMap_map]
  apply filterMap_eq_self_of
  intro d hd
  show (pickBest sourceKey SourceLike.score (docKey d) (Y.map toSourceLike)).bind
    (fun s => bestDocForKey Y (sourceKey s)) = some d
  rw [← hkeyEq d hd]
  rw [pickBest_of_nodup sourceKey SourceLike.score hsn
    (List.mem_map_of_mem toSourceLike hd)]
  show bestDocForKey Y (sourceKey (toSourceLike d)) = some d
  rw [hkeyEq d hd]
  exact pickBest_of_nodup docKey _ h1 hd

/-- C4: among all documents sharing a dedup key
((path || title).toLowerCase()), the document surviving the dedup stage
carries the highest rerank score. -/
theorem dedup_keeps_max_score (ds : List FormattedDoc) (d e : FormattedDoc)
    (hd : d ∈ dedupStage ds) (he : e ∈ ds) (hk : docKey e = docKey d) :
    e.rerank_score ≤ d.rerank_score := by
  have hbest := (dedupStage_mem_best hd).1
  obtain ⟨_, _, hmax⟩ := pickBest_spec hbest
  have := hmax e he hk
  simpa [jsOrQ_zero] using this

/-- Witness instantiating C4 on the claim's concrete instance: two
documents with path "a.md" and scores 0.3 and 0.9 — the deduplicated
result is the 0.9 document, which dominates the 0.3 one. -/
theorem dedup_keeps_max_score_witness :
    dedupStage [mkSearchDoc "a.md" (mkRat 3 10), mkSearchDoc "a.md" (mkRat 9 10)] =
      [mkSearchDoc "a.md" (mkRat 9 10)] ∧
    (mkSearchDoc "a.md" (mkRat 3 10)).rerank_score ≤
      (mkSearchDoc "a.md" (mkRat 9 10)).rerank_score := by
  constructor
  · decide
  · exact dedup_keeps_max_score
      [mkSearchDoc "a.md" (mkRat 3 10), mkSearchDoc "a.md" (mkRat 9 10)]
      (mkSearchDoc "a.md" (mkRat 9 10)) (mkSearchDoc "a.md" (mkRat 3 10))
      (by decide) (by decide) (by decide)

/-- C5: the dedup stage is idempotent — applying it to its own output is
the identity — and its output never contains two documents with the same
normalized key. -/
theorem dedupStage_idempotent (ds : List FormattedDoc) :
    dedupStage (dedupStage ds) = dedupStage ds ∧
    ((dedupStage ds).map docKey).Nodup := by
  refine ⟨?_, dedupStage_keys_nodup ds⟩
  apply dedupStage_of_clean
  · exact dedupStage_keys_nodup ds
  · intro d hd
    exact (dedupStage_mem_best hd).2.2

/-- Witness instantiating C5 on a concrete duplicate-bearing input. -/
theorem dedupStage_idempotent_witness :
    dedupStage (dedupStage
      [mkSearchDoc "a.md" (mkRat 3 10), mkSearchDoc "b.md" (mkRat 1 2),
        mkSearchDoc "a.md" (mkRat 9 10)]) =
    dedupStage
      [mkSearchDoc "a.md" (mkRat 3 10), mkSearchDoc "b.md" (mkRat 1 2),
        mkSearchDoc "a.md" (mkRat 9 10)] :=
  (dedupStage_idempotent
    [mkSearchDoc "a.md" (mkRat 3 10), mkSearchDoc "b.md" (mkRat 1 2),
      mkSearchDoc "a.md" (mkRat 9 10)]).1

/-- C10: every document emitted by the search pipeline has equal score and
rerank_score fields — both carry metadata.rerank_score ?? metadata.score
?? 0 of the retrieved document it serializes — and a document carrying
neither score serializes both fields as 0. -/
theorem searchResults_score_eq_rerank (regexTest : String → String → Bool)
    (settings : Settings) (documents : List LCDocument) :
    (∀ d ∈ searchResultsPipeline regexTest settings documents,
      d.score = d.rerank_score ∧
      ∃ doc ∈ documents, d = formatDoc doc ∧
        d.score = doc.metadata.rerank_score.getD (doc.metadata.score.getD 0)) ∧
    (∀ doc : LCDocument, doc.metadata.rerank_score = none →
      doc.metadata.score = none →
      (formatDoc doc).score = 0 ∧ (formatDoc doc).rerank_score = 0) := by
  constructor
  · intro d hd
    have hmem : d ∈ (documents.filter
        (fun doc => !(isPathExcluded regexTest (jsOrS doc.metadata.path "")
          settings.vaultSearchExcludedPaths))).map formatDoc :=
      (dedupStage_mem_best hd).2.1
    obtain ⟨doc, hdoc, hfmt⟩ := List.mem_map.mp hmem
    have hdocs : doc ∈ documents := (List.mem_filter.mp hdoc).1
    subst hfmt
    exact ⟨rfl, doc, hdocs, rfl, rfl⟩
  · intro doc h1 h2
    simp [formatDoc, h1, h2]

/-- Witness instantiating C10: a pipeline over one retrieved document with
only a raw score, plus a document with neither score serializing both
fields as 0. -/
theorem searchResults_score_eq_rerank_witness :
    (formatDoc (mkRetrievedDoc "n.md" (some (mkRat 3 10)) none)).score =
      (formatDoc (mkRetrievedDoc "n.md" (some (mkRat 3 10)) none)).rerank_score ∧
    (formatDoc (mkRetrievedDoc "x.md" none none)).score = 0 ∧
    (formatDoc (mkRetrievedDoc "x.md" none none)).rerank_score = 0 := by
  refine ⟨?_, ?_⟩
  · exact ((searchResults_score_eq_rerank (fun _ _ => false) ⟨30, true, []⟩
      [mkRetrievedDoc "n.md" (some (mkRat 3 10)) none]).1
      (formatDoc (mkRetrievedDoc "n.md" (some (mkRat 3 10)) none)) (by decide)).1
  · exact (searchResults_score_eq_rerank (fun _ _ => false) ⟨30, true, []⟩ []).2
      (mkRetrievedDoc "x.md" none none) rfl rfl

/-- Appending to a nonempty string yields a nonempty string. -/
theorem string_append_ne_empty_left {s : String} (t : String) (h : s ≠ "") :
    s ++ t ≠ "" := by
  intro hc
  apply h
  have hd : s.data ++ t.data = [] := by
    have := congrArg String.data hc
    simpa using this
  have : s.data = [] := (List.append_eq_nil.mp hd).1
  cases s with
  | mk data => rw [show data = [] from this]

/-- The not-configured message is never empty (it starts with a fixed
nonempty prefix). -/
theorem notConfiguredMessage_ne_empty (providerName : String)
    (configuredProvider : Option ProviderInfo) :
    notConfiguredMessage providerName configuredProvider ≠ "" := by
  unfold notConfiguredMessage
  have hbase : "Web search provider \"" ++
      jsOrS ((configuredProvider.map (fun p => p.displayName)).getD "") providerName ++
      "\" is not configured." ≠ "" := by
    apply string_append_ne_empty_left
    apply string_append_ne_empty_left
    decide
  cases configuredProvider with
  | none =>
    by_cases hs : providerName == "searxng" <;>
      simp only [hs, if_true, if_false, Bool.false_eq_true, ite_false, ite_true] <;>
      first
        | exact string_append_ne_empty_left _ hbase
        | exact hbase
  | some p =>
    by_cases h1 : (p.requiresApiKey && !((p.apiKeyUrl.getD "") == "")) = true
    · simp only [h1, if_true, ite_true]
      exact string_append_ne_empty_left _ (string_append_ne_empty_left _ hbase)
    · simp only [Bool.not_eq_true] at h1
      simp only [h1, Bool.false_eq_true, ite_false]
      by_cases hs : providerName == "searxng" <;>
        simp only [hs, Bool.false_eq_true, ite_false, ite_true] <;>
        first
          | exact string_append_ne_empty_left _ hbase
          | exact hbase

/-- When performWebSearch hands the tool an empty result list with a
nonempty answer, the handler emits the single-element error payload. -/
theorem webSearchHandler_error_payload (perform : String → WebSearchResponse)
    (q ci msg : String)
    (hresp : perform q = { query := q, results := [], answer := some msg })
    (hne : msg ≠ "") :
    webSearchHandler (.ok q) perform ci =
      [{ type := "web_search", error := some msg, content := msg,
         citations := [], instruction := none }] := by
  unfold webSearchHandler
  simp [hresp, hne]

/-- C9 (amended): performWebSearch converts a missing configuration and a
thrown provider error into a structured response with empty results and
the message in the answer field; the webSearch tool turns a
misconfiguration, a provider failure with a nonempty message, and a
thrown getStandaloneQuestion into a single-element "web_search" payload
carrying the error field, the error text as content and no citations —
the handlers are total Lean functions, so no exception reaches the
caller.  (A provider failure whose Error message is empty instead falls
through to the normal payload without an error field; see the
counterexample.) -/

theorem webSearch_error_payloads (providerName : String)
    (configuredProvider : Option ProviderInfo)
    (searchCall : String → Except JSThrown WebSearchResponse)
    (query citationInstructions : String) :
    (performWebSearch false providerName configuredProvider searchCall query =
      { query := query, results := [],
        answer := some (notConfiguredMessage providerName configuredProvider) }) ∧
    (∀ e, searchCall query = .error e →
      performWebSearch true providerName configuredProvider searchCall query =
        { query := query, results := [],
          answer := some (e.getD "Web search failed with unknown error") }) ∧
    (webSearchHandler (.ok query)
        (performWebSearch false providerName configuredProvider searchCall)
        citationInstructions =
      [{ type := "web_search",
         error := some (notConfiguredMessage providerName configuredProvider),
         content := notConfiguredMessage providerName configuredProvider,
         citations := [], instruction := none }]) ∧
    (∀ e, searchCall query = .error e →
      e.getD "Web search failed with unknown error" ≠ "" →
      webSearchHandler (.ok query)
        (performWebSearch true providerName configuredProvider searchCall)
        citationInstructions =
      [{ type := "web_search",
         error := some (e.getD "Web search failed with unknown error"),
         content := e.getD "Web search failed with unknown error",
         citations := [], instruction := none }]) ∧
    (∀ e, webSearchHandler (.error e)
        (performWebSearch true providerName configuredProvider searchCall)
        citationInstructions =
      [{ type := "web_search",
         error := some (e.getD "Web search failed"),
         content := e.getD "Web search failed with unknown error",
         citations := [], instruction := none }]) := by
  refine ⟨rfl, ?_, ?_, ?_, fun e => rfl⟩
  · intro e he
    unfold performWebSearch
    rw [he]
    simp
  · exact webSearchHandler_error_payload _ query citationInstructions _ rfl
      (notConfiguredMessage_ne_empty providerName configuredProvider)
  · intro e he hne
    refine webSearchHandler_error_payload _ query citationInstructions _ ?_ hne
    unfold performWebSearch
    rw [he]
    simp

/-- Witness instantiating C9 on a concrete provider failure with message
"boom". -/
theorem webSearch_error_payloads_witness :
    webSearchHandler (.ok "q")
      (performWebSearch true "tavily" none (fun _ => .error (some "boom")))
      "cite" =
    [{ type := "web_search", error := some "boom", content := "boom",
       citations := [], instruction := none }] :=
  (webSearch_error_payloads "tavily" none (fun _ => .error (some "boom"))
    "q" "cite").2.2.2.1 (some "boom") rfl (by decide)

/-- Counterexample to C9 as stated: a provider failure whose Error message
is empty produces a payload whose single element has no error field (the
empty answer is falsy, so the handler takes the normal-content path). -/
theorem webSearch_empty_message_cex :
    ((webSearchHandler (.ok "q")
        (performWebSearch true "tavily" none (fun _ => .error (some "")))
        "cite").map (fun x => x.error)) = [none] := by
  decide

/-- The fallback ranking puts index i at position i with score
1 - i * 0.01. -/
theorem fallbackData_get (documents : List String) (i : ℕ)
    (hi : i < (fallbackData documents).length) :
    ((fallbackData documents).get ⟨i, hi⟩).index = i ∧
    ((fallbackData documents).get ⟨i, hi⟩).relevance_score
      = 1 - (i : ℝ) * (1 / 100) := by
  unfold fallbackData at hi ⊢
  constructor <;> simp

/-- The fallback scores are strictly decreasing along the list. -/
theorem fallbackData_strict_decreasing (documents : List String) :
    (fallbackData documents).Pairwise
      (fun a b => b.relevance_score < a.relevance_score) := by
  unfold fallbackData
  rw [List.pairwise_map]
  refine List.Pairwise.imp ?_ (List.pairwise_lt_range documents.length)
  intro i j hij
  have hc : (i : ℝ) < (j : ℝ) := by exact_mod_cast hij
  simp only
  linarith

/-- C3: whenever the embedding backend is missing or either embedding call
throws, localRerank (a total function — it never raises) returns one
result per input document, index i at position i in original order, with
strictly decreasing synthetic scores 1 - i * 0.01 and the distinguishing
model identifier "fallback". -/
theorem localRerank_fallback (embeddingInstance : Option EmbeddingAPI)
    (embeddingModelKey query : String) (documents : List String)
    (h : embeddingInstance = none ∨
      ∃ inst, embeddingInstance = some inst ∧
        ((∃ e, inst.embedQuery query = .error e) ∨
         (∃ e, inst.embedDocuments documents = .error e))) :
    (localRerank embeddingInstance embeddingModelKey query documents).response.model
      = "fallback" ∧
    (localRerank embeddingInstance embeddingModelKey query documents).response.data
      = fallbackData documents ∧
    (localRerank embeddingInstance embeddingModelKey query
        documents).response.data.length = documents.length ∧
    (∀ (i : ℕ) (hi : i < (localRerank embeddingInstance embeddingModelKey query
        documents).response.data.length),
      ((localRerank embeddingInstance embeddingModelKey query
          documents).response.data.get ⟨i, hi⟩).index = i ∧
      ((localRerank embeddingInstance embeddingModelKey query
          documents).response.data.get ⟨i, hi⟩).relevance_score
        = 1 - (i : ℝ) * (1 / 100)) ∧
    (localRerank embeddingInstance embeddingModelKey query
        documents).response.data.Pairwise
      (fun a b => b.relevance_score < a.relevance_score) := by
  have hresp : (localRerank embeddingInstance embeddingModelKey query
      documents).response =
      { data := fallbackData documents, model := "fallback",
        usage := { total_tokens := 0 } } := by
    rcases h with rfl | ⟨inst, rfl, herr⟩
    · rfl
    · rcases herr with ⟨e, he⟩ | ⟨e, he⟩
      · simp only [localRerank, he]
      · cases hq : inst.embedQuery query with
        | error e2 => simp only [localRerank, hq]
        | ok qe => simp only [localRerank, hq, he]
  have hd : (localRerank embeddingInstance embeddingModelKey query
      documents).response.data = fallbackData documents := by rw [hresp]
  have hm : (localRerank embeddingInstance embeddingModelKey query
      documents).response.model = "fallback" := by rw [hresp]
  refine ⟨hm, hd, ?_, ?_, ?_⟩
  · rw [hd]
    simp [fallbackData]
  · intro i
    rw [hd]
    exact fun hi => fallbackData_get documents i hi
  · rw [hd]
    exact fallbackData_strict_decreasing documents

/-- Witness instantiating C3: a missing embedding model on a three-element
candidate list. -/
theorem localRerank_fallback_witness :
    (localRerank none "modelkey" "q" ["a", "b", "c"]).response.model
      = "fallback" ∧
    (localRerank none "modelkey" "q" ["a", "b", "c"]).response.data.length = 3 := by
  have h := localRerank_fallback none "modelkey" "q" ["a", "b", "c"] (Or.inl rfl)
  exact ⟨h.1, by simpa using h.2.2.1⟩

/-- Let-free view of cosineSimilarity. -/
theorem cosineSimilarity_eq (vecA vecB : List ℝ) :
    cosineSimilarity vecA vecB =
      if vecA.length ≠ vecB.length then .error "Vectors must have the same length"
      else if Real.sqrt (dotAcc vecA vecA) * Real.sqrt (dotAcc vecB vecB) = 0
        then .ok 0
        else .ok (dotAcc vecA vecB /
          (Real.sqrt (dotAcc vecA vecA) * Real.sqrt (dotAcc vecB vecB))) := rfl

/-- C8: on equal-length vectors, a zero magnitude on either side makes
cosineSimilarity return exactly 0 — no division by zero and no error. -/
theorem cosineSimilarity_zero_magnitude (vecA vecB : List ℝ)
    (hlen : vecA.length = vecB.length)
    (h : Real.sqrt (dotAcc vecA vecA) = 0 ∨ Real.sqrt (dotAcc vecB vecB) = 0) :
    cosineSimilarity vecA vecB = .ok 0 := by
  rw [cosineSimilarity_eq, if_neg (by simp [hlen])]
  have hmag : Real.sqrt (dotAcc vecA vecA) * Real.sqrt (dotAcc vecB vecB) = 0 := by
    rcases h with h | h <;> rw [h] <;> ring
  rw [if_pos hmag]

/-- Witness instantiating C8 on the zero vector against a nonzero one. -/
theorem cosineSimilarity_zero_magnitude_witness :
    cosineSimilarity [(0 : ℝ)] [5] = .ok 0 := by
  refine cosineSimilarity_zero_magnitude [(0 : ℝ)] [5] rfl (Or.inl ?_)
  have h0 : dotAcc [(0 : ℝ)] [(0 : ℝ)] = 0 := by simp [dotAcc]
  rw [h0, Real.sqrt_zero]

/-- The pairwise-product accumulator is symmetric. -/
theorem dotAcc_comm (a b : List ℝ) : dotAcc a b = dotAcc b a :=
  congrArg List.sum (List.zipWith_comm_of_comm _ mul_comm a b)

/-- cosineSimilarity is symmetric in its two arguments (on mismatched
lengths both orders throw the same error). -/
theorem cosineSimilarity_comm (vecA vecB : List ℝ) :
    cosineSimilarity vecA vecB = cosineSimilarity vecB vecA := by
  rw [cosineSimilarity_eq, cosineSimilarity_eq]
  by_cases hlen : vecA.length = vecB.length
  · have h1 : ¬(vecA.length ≠ vecB.length) := by simp [hlen]
    have h2 : ¬(vecB.length ≠ vecA.length) := by simp [hlen]
    rw [if_neg h1, if_neg h2, dotAcc_comm vecA vecB,
      mul_comm (Real.sqrt (dotAcc vecA vecA))]
  · have h2 : vecB.length ≠ vecA.length :=
      fun h => hlen h.symm
    rw [if_pos hlen, if_pos h2]

/-- The pairwise-product accumulator as a finite sum over positions. -/
theorem dotAcc_eq_sum (a : List ℝ) : ∀ b : List ℝ, dotAcc a b =
    ∑ i ∈ Finset.range (min a.length b.length), a.getD i 0 * b.getD i 0 := by
  induction a with
  | nil => intro b; simp [dotAcc]
  | cons x xs ih =>
    intro b
    cases b with
    | nil => simp [dotAcc]
    | cons y ys =>
      have hstep : dotAcc (x :: xs) (y :: ys) = x * y + dotAcc xs ys := by
        simp [dotAcc]
      rw [hstep, ih ys, List.length_cons, List.length_cons,
        Nat.succ_min_succ, Finset.sum_range_succ']
      simp [add_comm]

/-- Cauchy–Schwarz for the accumulator: the absolute dot product is at
most the product of the magnitudes. -/
theorem abs_dotAcc_le {a b : List ℝ} (hlen : a.length = b.length) :
    |dotAcc a b| ≤ Real.sqrt (dotAcc a a) * Real.sqrt (dotAcc b b) := by
  have hab : dotAcc a b =
      ∑ i ∈ Finset.range a.length, a.getD i 0 * b.getD i 0 := by
    rw [dotAcc_eq_sum]
    simp [hlen]
  have haa : dotAcc a a =
      ∑ i ∈ Finset.range a.length, (a.getD i 0) ^ 2 := by
    rw [dotAcc_eq_sum]
    simp only [min_self]
    exact Finset.sum_congr rfl (fun i _ => (pow_two _).symm)
  have hbb : dotAcc b b =
      ∑ i ∈ Finset.range a.length, (b.getD i 0) ^ 2 := by
    rw [dotAcc_eq_sum]
    simp only [min_self, hlen]
    exact Finset.sum_congr rfl (fun i _ => (pow_two _).symm)
  rw [hab, haa, hbb]
  have h1 := Real.sum_mul_le_sqrt_mul_sqrt (Finset.range a.length)
    (fun i => a.getD i 0) (fun i => b.getD i 0)
  have h2 := Real.sum_mul_le_sqrt_mul_sqrt (Finset.range a.length)
    (fun i => -(a.getD i 0)) (fun i => b.getD i 0)
  simp only [neg_mul, Finset.sum_neg_distrib, neg_sq] at h2
  rw [abs_le]
  constructor <;> linarith

/-- A similarity actually returned by cosineSimilarity lies in [-1, 1]. -/
theorem cosineSimilarity_ok_bounds {a b : List ℝ} {s : ℝ}
    (h : cosineSimilarity a b = .ok s) : -1 ≤ s ∧ s ≤ 1 := by
  rw [cosineSimilarity_eq] at h
  by_cases hlen : a.length = b.length
  · rw [if_neg (by simp [hlen])] at h
    by_cases hmag : Real.sqrt (dotAcc a a) * Real.sqrt (dotAcc b b) = 0
    · rw [if_pos hmag] at h
      injection h with h2
      rw [← h2]
      norm_num
    · rw [if_neg hmag] at h
      injection h with h2
      have hpos : 0 < Real.sqrt (dotAcc a a) * Real.sqrt (dotAcc b b) :=
        lt_of_le_of_ne (mul_nonneg (Real.sqrt_nonneg _) (Real.sqrt_nonneg _))
          (Ne.symm hmag)
      have habs := abs_le.mp (abs_dotAcc_le hlen)
      rw [← h2]
      constructor
      · rw [le_div_iff₀ hpos]
        linarith [habs.1]
      · rw [div_le_one hpos]
        exact habs.2
  · rw [if_pos hlen] at h
    cases h

/-- Sorting does not add or drop results. -/
theorem sortByScoreDesc_mem {l : List RerankResult} {r : RerankResult}
    (h : r ∈ sortByScoreDesc l) : r ∈ l := by
  unfold sortByScoreDesc at h
  exact (List.mergeSort_perm l _).mem_iff.mp h

/-- A successful exception-aware map sends every output back to an input
on which the callback succeeded. -/
theorem exceptMap_ok_mem {ε α β : Type} {f : α → Except ε β} :
    ∀ {l : List α} {ys : List β}, exceptMap f l = .ok ys →
      ∀ y ∈ ys, ∃ x ∈ l, f x = .ok y := by
  intro l
  induction l with
  | nil =>
    intro ys h y hy
    unfold exceptMap at h
    injection h with h2
    rw [← h2] at hy
    cases hy
  | cons a rest ih =>
    intro ys h y hy
    unfold exceptMap at h
    cases hfa : f a with
    | error e => rw [hfa] at h; cases h
    | ok b =>
      rw [hfa] at h
      cases hrest : exceptMap f rest with
      | error e => rw [hrest] at h; cases h
      | ok bs =>
        rw [hrest] at h
        injection h with h2
        rw [← h2] at hy
        rcases List.mem_cons.mp hy with rfl | hy2
        · exact ⟨a, List.mem_cons_self _ _, hfa⟩
        · obtain ⟨x, hx, hfx⟩ := ih hrest y hy2
          exact ⟨x, List.mem_cons_of_mem _ hx, hfx⟩

/-- A successful per-candidate scoring pins down the embedding, the
similarity and the produced result. -/
theorem scoreOne_ok {q : List ℝ} {embs : List (List ℝ)} {i : ℕ}
    {r : RerankResult} (h : scoreOne q embs i = .ok r) :
    ∃ emb sim, embs[i]? = some emb ∧ cosineSimilarity q emb = .ok sim ∧
      r = ⟨i, (sim + 1) / 2⟩ := by
  unfold scoreOne at h
  cases hemb : embs[i]? with
  | none => rw [hemb] at h; cases h
  | some emb =>
    simp only [hemb] at h
    cases hc : cosineSimilarity q emb with
    | error e =>
      rw [hc] at h
      simp only [Except.map] at h
      exact Except.noConfusion h
    | ok sim =>
      rw [hc] at h
      simp only [Except.map, Except.ok.injEq] at h
      exact ⟨emb, sim, rfl, hc, h.symm⟩

/-- Every fallback entry's score is determined by its index. -/
theorem fallbackData_mem_formula {documents : List String} {r : RerankResult}
    (h : r ∈ fallbackData documents) :
    r.relevance_score = 1 - (r.index : ℝ) * (1 / 100) := by
  unfold fallbackData at h
  obtain ⟨i, _, hr⟩ := List.mem_map.mp h
  rw [← hr]

/-- C7 (amended): cosineSimilarity is symmetric, and every
RerankResult produced by localRerank either has its relevance score in
[0, 1] (always the case on the embedding path, by Cauchy–Schwarz and the
(similarity + 1) / 2 normalization) or is a fallback-path entry whose
score is exactly 1 - index * 0.01, which drops below 0 from index 101 on
(see the counterexample). -/
theorem cosine_symm_and_rerank_score_bounds :
    (∀ vecA vecB : List ℝ,
      cosineSimilarity vecA vecB = cosineSimilarity vecB vecA) ∧
    (∀ (embeddingInstance : Option EmbeddingAPI)
        (embeddingModelKey query : String) (documents : List String)
        (r : RerankResult),
      r ∈ (localRerank embeddingInstance embeddingModelKey query
          documents).response.data →
      (0 ≤ r.relevance_score ∧ r.relevance_score ≤ 1) ∨
      ((localRerank embeddingInstance embeddingModelKey query
          documents).response.model = "fallback" ∧
        r.relevance_score = 1 - (r.index : ℝ) * (1 / 100))) := by
  constructor
  · exact cosineSimilarity_comm
  · intro inst key query docs r hr
    cases inst with
    | none =>
      right
      exact ⟨rfl, fallbackData_mem_formula hr⟩
    | some api =>
      cases hq : api.embedQuery query with
      | error e =>
        right
        have hresp : (localRerank (some api) key query docs).response =
            { data := fallbackData docs, model := "fallback",
              usage := { total_tokens := 0 } } := by
          simp only [localRerank, hq]
        rw [hresp] at hr
        exact ⟨by rw [hresp], fallbackData_mem_formula hr⟩
      | ok qe =>
        cases hd : api.embedDocuments docs with
        | error e =>
          right
          have hresp : (localRerank (some api) key query docs).response =
              { data := fallbackData docs, model := "fallback",
                usage := { total_tokens := 0 } } := by
            simp only [localRerank, hq, hd]
          rw [hresp] at hr
          exact ⟨by rw [hresp], fallbackData_mem_formula hr⟩
        | ok de =>
          cases hm : exceptMap (scoreOne qe de) (List.range docs.length) with
          | error e =>
            right
            have hresp : (localRerank (some api) key query docs).response =
                { data := fallbackData docs, model := "fallback",
                  usage := { total_tokens := 0 } } := by
              simp only [localRerank, hq, hd, hm]
            rw [hresp] at hr
            exact ⟨by rw [hresp], fallbackData_mem_formula hr⟩
          | ok scored =>
            left
            have hresp : (localRerank (some api) key query docs).response =
                { data := sortByScoreDesc scored, model := jsOrS key "local",
                  usage := { total_tokens := rerankTokenEstimate docs } } := by
              simp only [localRerank, hq, hd, hm]
            rw [hresp] at hr
            have hr2 : r ∈ scored := sortByScoreDesc_mem hr
            obtain ⟨i, _, hone⟩ := exceptMap_ok_mem hm r hr2
            obtain ⟨emb, sim, _, hcos, hrr⟩ := scoreOne_ok hone
            obtain ⟨hl, hu⟩ := cosineSimilarity_ok_bounds hcos
            rw [hrr]
            constructor
            · show 0 ≤ (sim + 1) / 2
              linarith
            · show (sim + 1) / 2 ≤ 1
              linarith

/-- Witness instantiating C7: symmetry on concrete vectors, and the score
characterization on a concrete fallback entry. -/
theorem cosine_symm_and_rerank_score_bounds_witness :
    cosineSimilarity [(1 : ℝ), 2] [3, 4] = cosineSimilarity [3, 4] [(1 : ℝ), 2] ∧
    ((0 ≤ (⟨0, 1 - ((0 : ℕ) : ℝ) * (1 / 100)⟩ : RerankResult).relevance_score ∧
      (⟨0, 1 - ((0 : ℕ) : ℝ) * (1 / 100)⟩ : RerankResult).relevance_score ≤ 1) ∨
     ((localRerank none "key" "q" ["a"]).response.model = "fallback" ∧
      (⟨0, 1 - ((0 : ℕ) : ℝ) * (1 / 100)⟩ : RerankResult).relevance_score =
        1 - ((⟨0, 1 - ((0 : ℕ) : ℝ) * (1 / 100)⟩ : RerankResult).index : ℝ) * (1 / 100))) := by
  constructor
  · exact cosine_symm_and_rerank_score_bounds.1 [(1 : ℝ), 2] [3, 4]
  · refine cosine_symm_and_rerank_score_bounds.2 none "key" "q" ["a"]
      ⟨0, 1 - ((0 : ℕ) : ℝ) * (1 / 100)⟩ ?_
    show (⟨0, 1 - ((0 : ℕ) : ℝ) * (1 / 100)⟩ : RerankResult) ∈ fallbackData ["a"]
    unfold fallbackData
    exact List.mem_map.mpr ⟨0, by simp, rfl⟩

/-- Counterexample to C7 as stated: with 102 candidates on the fallback
path, the last synthetic score 1 - 101 * 0.01 is negative, so not every
produced relevance score lies in [0, 1]. -/
theorem localRerank_score_negative_cex :
    ¬ (∀ r ∈ (localRerank none "" "q" (List.replicate 102 "a")).response.data,
        0 ≤ r.relevance_score) := by
  intro hall
  have hmem : (⟨101, 1 - ((101 : ℕ) : ℝ) * (1 / 100)⟩ : RerankResult) ∈
      (localRerank none "" "q" (List.replicate 102 "a")).response.data := by
    show (⟨101, 1 - ((101 : ℕ) : ℝ) * (1 / 100)⟩ : RerankResult) ∈
      fallbackData (List.replicate 102 "a")
    unfold fallbackData
    rw [List.length_replicate]
    exact List.mem_map.mpr ⟨101, by simp, rfl⟩
  have hc := hall _ hmem
  simp only at hc
  norm_num at hc
